import Mathlib

/-!
# Mailbox message server: shallow embedding and verification

This file embeds the message-server portion of the repository (the Express
app `messageServer`: the module-level `messages` map, `generateMessageId`,
and the `/send`, `/recv` and `/health` route handlers) as pure Lean
functions, and proves the specified properties about them.

Modelling choices:
* The module-level `Map<string, Message[]>` is an association list in
  insertion order (`Store`), with `Map.set` / `Map.get` / `Map.has` /
  `Map.delete` / `Map.size` translated as `mapSet` / `mapGetD` / `mapHas` /
  `mapDelete` / `mapSize`.
* `Date.now()` and `new Date()` within one `/send` call are modelled by a
  single instant `now : Nat` (milliseconds); `Math.random().toString(36).substr(2, 9)`
  is modelled by an arbitrary string parameter `rand`, since its value is a
  nondeterministic input to the handler.
* JavaScript `toLowerCase` / `trim` are modelled by `jsToLower` / `jsTrim`
  below (per-character ASCII case folding and whitespace stripping; all
  keys exercised here are ASCII).
* A JSON body field is `Option JsonVal` (`none` = absent); an Express query
  parameter is `Option QueryVal` (a string, an array of strings, or a
  nested object, the three shapes the `qs` parser produces).
-/

/-- JavaScript `String.prototype.toLowerCase`, modelled as per-character
case folding. -/
def jsToLower (s : String) : String :=
  ⟨s.data.map Char.toLower⟩

/-- JavaScript `String.prototype.trim`: strip leading and trailing
whitespace. -/
def jsTrim (s : String) : String :=
  ⟨((s.data.dropWhile Char.isWhitespace).reverse.dropWhile Char.isWhitespace).reverse⟩

/-- The `Message` record created by the `/send` handler
(`{ id, content, recipient, timestamp }`). -/
structure Message where
  id : String
  content : String
  recipient : String
  timestamp : Nat
deriving DecidableEq, Repr

/-- The module-level `messages : Map<string, Message[]>`, as an association
list in insertion order. -/
abbrev Store := List (String × List Message)

/-- `messages.get(k)`, defaulted to `[]` as in `messages.get(key) || []`. -/
def mapGetD (s : Store) (k : String) : List Message :=
  (List.lookup k s).getD []

/-- `messages.has(k)`. -/
def mapHas (s : Store) (k : String) : Bool :=
  (List.lookup k s).isSome

/-- `messages.set(k, v)`: replaces the value of an existing key in place,
or appends a new entry at the end (JavaScript `Map` insertion order). -/
def mapSet : Store → String → List Message → Store
  | [], k, v => [(k, v)]
  | (k', v') :: rest, k, v =>
    if k' = k then (k', v) :: rest else (k', v') :: mapSet rest k v

/-- `messages.delete(k)`: removes the entry for `k` (a `Map` holds at most
one entry per key). -/
def mapDelete : Store → String → Store
  | [], _ => []
  | (k', v') :: rest, k =>
    if k' = k then rest else (k', v') :: mapDelete rest k

/-- `messages.size`. -/
def mapSize (s : Store) : Nat := s.length

/-- `generateMessageId`: `Date.now().toString() + Math.random().toString(36).substr(2, 9)`,
with the clock reading `now` and the random base-36 fragment `rand` as inputs. -/
def generateMessageId (now : Nat) (rand : String) : String :=
  toString now ++ rand

/-- The store-mutating core of the `/send` handler, after validation:
builds `newMessage` and performs
`if (!messages.has(key)) messages.set(key, []); messages.get(key)!.push(newMessage)`
(the in-place `push` is `set key (old ++ [newMessage])`). -/
def sendStore (s : Store) (recipient content : String) (now : Nat) (rand : String) :
    Message × Store :=
  let newMessage : Message :=
    { id := generateMessageId now rand
      content := content
      recipient := jsToLower recipient
      timestamp := now }
  let s1 := if mapHas s newMessage.recipient then s else mapSet s newMessage.recipient []
  let s2 := mapSet s1 newMessage.recipient (mapGetD s1 newMessage.recipient ++ [newMessage])
  (newMessage, s2)

/-- A JSON value as read from a request-body field. -/
inductive JsonVal where
  | jstr : String → JsonVal
  | jnum : Int → JsonVal
  | jbool : Bool → JsonVal
  | jnull : JsonVal
deriving DecidableEq, Repr

/-- The `/send` handler's response: `res.status(400).json({error, message})`
or `res.status(201).json({success: true, ..., data: {id, recipient, timestamp}})`. -/
inductive SendResult where
  | badRequest (error errmsg : String)
  | created (id recipient : String) (timestamp : Nat)
deriving DecidableEq, Repr

/-- The `/send` route handler. The guard
`!recipient || typeof recipient !== 'string'` accepts exactly the non-empty
strings (a non-string or absent value fails `typeof`, the empty string is
falsy), and likewise for `message`; both rejections return the literal
error bodies of the source and leave the store untouched. -/
def sendHandler (s : Store) (recipient message : Option JsonVal) (now : Nat) (rand : String) :
    SendResult × Store :=
  match recipient with
  | some (.jstr r) =>
    if r = "" then
      (.badRequest "Invalid recipient" "Recipient is required and must be a string", s)
    else
      match message with
      | some (.jstr c) =>
        if c = "" then
          (.badRequest "Invalid message" "Message is required and must be a string", s)
        else
          let ms := sendStore s r c now rand
          (.created ms.1.id ms.1.recipient ms.1.timestamp, ms.2)
      | _ => (.badRequest "Invalid message" "Message is required and must be a string", s)
  | _ => (.badRequest "Invalid recipient" "Recipient is required and must be a string", s)

/-- An Express query-parameter value: a string, an array of strings
(repeated parameter), or a nested object (bracket syntax). -/
inductive QueryVal where
  | qstr : String → QueryVal
  | qarr : List String → QueryVal
  | qobj : QueryVal
deriving DecidableEq, Repr

/-- JavaScript truthiness of a query value (`!recipient`): the empty string
is falsy; arrays and objects are always truthy. -/
def queryTruthy : QueryVal → Bool
  | .qstr s => s ≠ ""
  | .qarr _ => true
  | .qobj => true

/-- `String(recipient)`: identity on strings, `join(",")` on arrays,
`"[object Object]"` on objects. -/
def queryToString : QueryVal → String
  | .qstr s => s
  | .qarr l => String.intercalate "," l
  | .qobj => "[object Object]"

/-- The per-message projection the `/recv` handler returns:
`{ id, content, timestamp }` (the `recipient` field is dropped). -/
def publicView (m : Message) : String × String × Nat :=
  (m.id, m.content, m.timestamp)

/-- The `data` object of a successful `/recv` response. -/
structure RecvData where
  recipient : String
  messages : List (String × String × Nat)
  count : Nat
deriving DecidableEq, Repr

/-- The `/recv` handler's response. -/
inductive RecvResult where
  | badRequest (error errmsg : String)
  | ok (message : String) (data : RecvData)
deriving DecidableEq, Repr

/-- The `/recv` route handler: rejects a missing or falsy `recipient`
query parameter, coerces it with `String(...)`, rejects a
whitespace-only coercion, lower-cases the key, and either reports an
empty mailbox (no mutation) or copies the mailbox, deletes the key and
returns the copy. -/
def recvHandler (s : Store) (recipient : Option QueryVal) : RecvResult × Store :=
  match recipient with
  | none => (.badRequest "Invalid recipient" "Recipient parameter is required", s)
  | some q =>
    if !queryTruthy q then
      (.badRequest "Invalid recipient" "Recipient parameter is required", s)
    else
      let recipientStr := queryToString q
      if jsTrim recipientStr = "" then
        (.badRequest "Invalid recipient" "Recipient parameter cannot be empty", s)
      else
        let recipientKey := jsToLower recipientStr
        let recipientMessages := mapGetD s recipientKey
        if recipientMessages.length = 0 then
          (.ok "No messages found for recipient" ⟨recipientKey, [], 0⟩, s)
        else
          (.ok "Messages retrieved successfully"
            ⟨recipientKey, recipientMessages.map publicView, recipientMessages.length⟩,
            mapDelete s recipientKey)

/-- The `/health` response body. -/
structure HealthData where
  status : String
  message : String
  endpoints : List String
  totalRecipients : Nat
deriving DecidableEq, Repr

/-- The `/health` route handler: reads `messages.size`, mutates nothing. -/
def healthHandler (s : Store) : HealthData × Store :=
  ({ status := "healthy"
     message := "Message server is running"
     endpoints := ["POST /send", "GET /recv"]
     totalRecipients := mapSize s }, s)

/-- The `Message` record `/send` builds from its inputs (the body of
`newMessage` in the handler). -/
def mkMessage (r c : String) (now : Nat) (rand : String) : Message :=
  { id := generateMessageId now rand
    content := c
    recipient := jsToLower r
    timestamp := now }

/-- A sequence of `/send` requests to one recipient name `r`: each item is
`(content, now, rand)`; the requests are issued in list order. -/
def sendMany (s : Store) (r : String) (items : List (String × Nat × String)) : Store :=
  items.foldl
    (fun st it => (sendHandler st (some (.jstr r)) (some (.jstr it.1)) it.2.1 it.2.2).2) s

/-- States of the module-level map reachable from the initial empty `Map`
by any sequence of `/send` and `/recv` requests (`/health` does not touch
the map). -/
inductive Reachable : Store → Prop where
  | init : Reachable []
  | send (r m : Option JsonVal) (now : Nat) (rand : String) {s : Store} :
      Reachable s → Reachable (sendHandler s r m now rand).2
  | recv (q : Option QueryVal) {s : Store} :
      Reachable s → Reachable (recvHandler s q).2

/-- The invariant the handlers maintain on the map: keys are distinct
(automatic for a real `Map`), every entry holds a non-empty list, and
every stored message carries its own key in its `recipient` field. -/
def StoreInv (s : Store) : Prop :=
  (s.map Prod.fst).Nodup ∧ (∀ p ∈ s, p.2 ≠ []) ∧ ∀ p ∈ s, ∀ m ∈ p.2, m.recipient = p.1

/-- The number of entries of the map holding a non-empty mailbox (what the
spec calls "recipient keys currently mapping to a non-empty mailbox"). -/
def nonEmptyRecipients (s : Store) : Nat :=
  (s.filter fun p => !p.2.isEmpty).length

/-! ## Basic lemmas about the map operations -/

theorem ne_empty_of_jsTrim_ne {r : String} (h : jsTrim r ≠ "") : r ≠ "" := by
  intro he
  subst he
  exact h rfl


theorem lookup_cons_pair (k k₀ : String) (v₀ : List Message) (rest : Store) :
    List.lookup k ((k₀, v₀) :: rest) = if k = k₀ then some v₀ else List.lookup k rest := by
  by_cases h : k = k₀
  · simp [List.lookup, h]
  · have hb : (k == k₀) = false := beq_eq_false_iff_ne.mpr h
    simp [List.lookup, hb, h]

theorem lookup_mapSet_self (s : Store) (k : String) (v : List Message) :
    List.lookup k (mapSet s k v) = some v := by
  induction s with
  | nil => simp [mapSet, lookup_cons_pair]
  | cons p rest ih =>
    obtain ⟨k', v'⟩ := p
    by_cases h : k' = k
    · subst h
      simp [mapSet, lookup_cons_pair]
    · simp [mapSet, h, lookup_cons_pair, Ne.symm h, ih]

theorem lookup_mapSet_ne (s : Store) {k k' : String} (v : List Message) (h : k' ≠ k) :
    List.lookup k' (mapSet s k v) = List.lookup k' s := by
  induction s with
  | nil => simp [mapSet, lookup_cons_pair, h]
  | cons p rest ih =>
    obtain ⟨k₀, v₀⟩ := p
    by_cases hk : k₀ = k
    · subst hk
      simp [mapSet, lookup_cons_pair, h, ih]
    · by_cases hk' : k' = k₀
      · subst hk'
        simp [mapSet, hk, lookup_cons_pair]
      · simp [mapSet, hk, lookup_cons_pair, hk', ih]

theorem mapHas_false_iff (s : Store) (k : String) :
    mapHas s k = false ↔ k ∉ s.map Prod.fst := by
  induction s with
  | nil => simp [mapHas]
  | cons p rest ih =>
    obtain ⟨k₀, v₀⟩ := p
    by_cases hk : k = k₀
    · subst hk
      simp [mapHas, lookup_cons_pair]
    · simp only [mapHas, lookup_cons_pair, if_neg hk, List.map_cons, List.mem_cons, not_or] at ih ⊢
      simp [hk, ih]

theorem lookup_eq_none_of_not_mem {s : Store} {k : String} (h : k ∉ s.map Prod.fst) :
    List.lookup k s = none := by
  induction s with
  | nil => simp
  | cons p rest ih =>
    obtain ⟨k₀, v₀⟩ := p
    simp only [List.map_cons, List.mem_cons, not_or] at h
    rw [lookup_cons_pair, if_neg h.1]
    exact ih h.2

theorem mem_of_lookup_eq_some {s : Store} {k : String} {v : List Message}
    (h : List.lookup k s = some v) : (k, v) ∈ s := by
  induction s with
  | nil => simp at h
  | cons p rest ih =>
    obtain ⟨k₀, v₀⟩ := p
    rw [lookup_cons_pair] at h
    by_cases hk : k = k₀
    · rw [if_pos hk] at h
      subst hk
      obtain rfl : v₀ = v := Option.some.inj h
      exact List.mem_cons_self _ _
    · rw [if_neg hk] at h
      exact List.mem_cons_of_mem _ (ih h)

theorem mapSet_of_not_has (s : Store) {k : String} (v : List Message)
    (h : mapHas s k = false) : mapSet s k v = s ++ [(k, v)] := by
  induction s with
  | nil => simp [mapSet]
  | cons p rest ih =>
    obtain ⟨k₀, v₀⟩ := p
    rw [mapHas_false_iff] at h
    simp only [List.map_cons, List.mem_cons, not_or] at h
    have hne : k₀ ≠ k := fun he => h.1 he.symm
    have hrest : mapHas rest k = false := (mapHas_false_iff rest k).mpr h.2
    simp [mapSet, hne, ih hrest]

theorem keys_mapSet_of_has (s : Store) {k : String} (v : List Message)
    (h : mapHas s k = true) : (mapSet s k v).map Prod.fst = s.map Prod.fst := by
  induction s with
  | nil => simp [mapHas] at h
  | cons p rest ih =>
    obtain ⟨k₀, v₀⟩ := p
    by_cases hk : k₀ = k
    · subst hk
      simp [mapSet]
    · rw [mapHas, lookup_cons_pair, if_neg (fun he => hk he.symm)] at h
      simp [mapSet, hk, ih h]

theorem mem_mapSet {s : Store} {k : String} {v : List Message} {p : String × List Message}
    (hp : p ∈ mapSet s k v) : p = (k, v) ∨ p ∈ s := by
  induction s with
  | nil => simpa [mapSet] using hp
  | cons q rest ih =>
    obtain ⟨k₀, v₀⟩ := q
    by_cases hk : k₀ = k
    · subst hk
      simp [mapSet] at hp
      rcases hp with h1 | h1
      · exact Or.inl h1
      · exact Or.inr (List.mem_cons_of_mem _ h1)
    · simp only [mapSet, if_neg hk, List.mem_cons] at hp
      rcases hp with h1 | h1
      · exact Or.inr (List.mem_cons.mpr (Or.inl h1))
      · rcases ih h1 with h2 | h2
        · exact Or.inl h2
        · exact Or.inr (List.mem_cons_of_mem _ h2)

theorem mapDelete_sublist (s : Store) (k : String) : (mapDelete s k).Sublist s := by
  induction s with
  | nil => simp [mapDelete]
  | cons p rest ih =>
    obtain ⟨k₀, v₀⟩ := p
    by_cases hk : k₀ = k
    · subst hk
      simp only [mapDelete, if_pos rfl]
      exact List.Sublist.cons (k₀, v₀) (List.Sublist.refl rest)
    · simpa [mapDelete, hk] using List.Sublist.cons₂ (k₀, v₀) ih

theorem lookup_mapDelete_ne (s : Store) {k k' : String} (h : k' ≠ k) :
    List.lookup k' (mapDelete s k) = List.lookup k' s := by
  induction s with
  | nil => simp [mapDelete]
  | cons p rest ih =>
    obtain ⟨k₀, v₀⟩ := p
    by_cases hk : k₀ = k
    · subst hk
      simp [mapDelete, lookup_cons_pair, h, ih]
    · by_cases hk' : k' = k₀
      · subst hk'
        simp [mapDelete, hk, lookup_cons_pair]
      · simp [mapDelete, hk, lookup_cons_pair, hk', ih]

theorem not_mem_keys_mapDelete_self {s : Store} {k : String}
    (hnd : (s.map Prod.fst).Nodup) : k ∉ (mapDelete s k).map Prod.fst := by
  induction s with
  | nil => simp [mapDelete]
  | cons p rest ih =>
    obtain ⟨k₀, v₀⟩ := p
    simp only [List.map_cons, List.nodup_cons] at hnd
    by_cases hk : k₀ = k
    · subst hk
      simpa [mapDelete] using hnd.1
    · simp only [mapDelete, if_neg hk, List.map_cons, List.mem_cons, not_or]
      exact ⟨fun he => hk he.symm, ih hnd.2⟩

theorem lookup_mapDelete_self (s : Store) (k : String)
    (hnd : (s.map Prod.fst).Nodup) : List.lookup k (mapDelete s k) = none :=
  lookup_eq_none_of_not_mem (not_mem_keys_mapDelete_self hnd)

theorem length_mapDelete_of_has (s : Store) {k : String} (h : mapHas s k = true) :
    (mapDelete s k).length + 1 = s.length := by
  induction s with
  | nil => simp [mapHas] at h
  | cons p rest ih =>
    obtain ⟨k₀, v₀⟩ := p
    by_cases hk : k₀ = k
    · simp [mapDelete, hk]
    · rw [mapHas, lookup_cons_pair, if_neg (fun he => hk he.symm)] at h
      simp [mapDelete, hk, ih h]

/-! ## The effect of `/send` and `/recv` on the map -/

theorem mapSet_mapSet (s : Store) (k : String) (v w : List Message) :
    mapSet (mapSet s k v) k w = mapSet s k w := by
  induction s with
  | nil => simp [mapSet]
  | cons p rest ih =>
    obtain ⟨k₀, v₀⟩ := p
    by_cases hk : k₀ = k
    · simp [mapSet, hk]
    · simp [mapSet, hk, ih]

theorem mapGetD_mapSet_self (s : Store) (k : String) (v : List Message) :
    mapGetD (mapSet s k v) k = v := by
  simp [mapGetD, lookup_mapSet_self]

theorem mapGetD_mapSet_ne (s : Store) {k k' : String} (v : List Message) (h : k' ≠ k) :
    mapGetD (mapSet s k v) k' = mapGetD s k' := by
  simp [mapGetD, lookup_mapSet_ne s v h]

theorem mapGetD_mapDelete_self (s : Store) (k : String)
    (hnd : (s.map Prod.fst).Nodup) : mapGetD (mapDelete s k) k = [] := by
  simp [mapGetD, lookup_mapDelete_self s k hnd]

theorem mapGetD_mapDelete_ne (s : Store) {k k' : String} (h : k' ≠ k) :
    mapGetD (mapDelete s k) k' = mapGetD s k' := by
  simp [mapGetD, lookup_mapDelete_ne s h]

theorem mapGetD_eq_nil_of_not_has (s : Store) {k : String} (h : mapHas s k = false) :
    mapGetD s k = [] := by
  cases hlk : List.lookup k s with
  | none => simp [mapGetD, hlk]
  | some v =>
    rw [mapHas, hlk] at h
    simp at h

theorem sendStore_fst (s : Store) (r c : String) (t : Nat) (rd : String) :
    (sendStore s r c t rd).1 = mkMessage r c t rd := rfl

theorem sendStore_snd_of_has (s : Store) {r : String} (c : String) (t : Nat) (rd : String)
    (h : mapHas s (jsToLower r) = true) :
    (sendStore s r c t rd).2 =
      mapSet s (jsToLower r) (mapGetD s (jsToLower r) ++ [mkMessage r c t rd]) := by
  simp [sendStore, mkMessage, h]

theorem sendStore_snd_of_not_has (s : Store) {r : String} (c : String) (t : Nat) (rd : String)
    (h : mapHas s (jsToLower r) = false) :
    (sendStore s r c t rd).2 = mapSet s (jsToLower r) [mkMessage r c t rd] := by
  simp [sendStore, mkMessage, h, mapSet_mapSet, mapGetD_mapSet_self]

theorem sendStore_getD_self (s : Store) (r c : String) (t : Nat) (rd : String) :
    mapGetD (sendStore s r c t rd).2 (jsToLower r) =
      mapGetD s (jsToLower r) ++ [mkMessage r c t rd] := by
  by_cases h : mapHas s (jsToLower r) = true
  · rw [sendStore_snd_of_has s c t rd h, mapGetD_mapSet_self]
  · have h' : mapHas s (jsToLower r) = false := by simpa using h
    rw [sendStore_snd_of_not_has s c t rd h', mapGetD_mapSet_self,
      mapGetD_eq_nil_of_not_has s h']
    simp

theorem sendStore_getD_ne (s : Store) {r : String} (c : String) (t : Nat) (rd : String)
    {k : String} (h : k ≠ jsToLower r) :
    mapGetD (sendStore s r c t rd).2 k = mapGetD s k := by
  by_cases hh : mapHas s (jsToLower r) = true
  · rw [sendStore_snd_of_has s c t rd hh, mapGetD_mapSet_ne _ _ h]
  · have h' : mapHas s (jsToLower r) = false := by simpa using hh
    rw [sendStore_snd_of_not_has s c t rd h', mapGetD_mapSet_ne _ _ h]

theorem sendHandler_valid (s : Store) {r c : String} (t : Nat) (rd : String)
    (hr : r ≠ "") (hc : c ≠ "") :
    sendHandler s (some (.jstr r)) (some (.jstr c)) t rd =
      (.created (generateMessageId t rd) (jsToLower r) t, (sendStore s r c t rd).2) := by
  simp [sendHandler, hr, hc, sendStore]

theorem recvHandler_empty (s : Store) (q : QueryVal)
    (htr : queryTruthy q = true) (hr : jsTrim (queryToString q) ≠ "")
    (he : mapGetD s (jsToLower (queryToString q)) = []) :
    recvHandler s (some q) =
      (.ok "No messages found for recipient" ⟨jsToLower (queryToString q), [], 0⟩, s) := by
  simp [recvHandler, htr, hr, he]

theorem recvHandler_drain (s : Store) (q : QueryVal)
    (htr : queryTruthy q = true) (hr : jsTrim (queryToString q) ≠ "")
    (hne : mapGetD s (jsToLower (queryToString q)) ≠ []) :
    recvHandler s (some q) =
      (.ok "Messages retrieved successfully"
        ⟨jsToLower (queryToString q),
         (mapGetD s (jsToLower (queryToString q))).map publicView,
         (mapGetD s (jsToLower (queryToString q))).length⟩,
        mapDelete s (jsToLower (queryToString q))) := by
  have hlen : (mapGetD s (jsToLower (queryToString q))).length ≠ 0 := by
    simpa [List.length_eq_zero] using hne
  simp [recvHandler, htr, hr, hlen]

theorem recvHandler_frame (s : Store) (q : QueryVal) {k : String}
    (h : k ≠ jsToLower (queryToString q)) :
    mapGetD (recvHandler s (some q)).2 k = mapGetD s k := by
  by_cases ht : queryTruthy q = true
  · by_cases htr : jsTrim (queryToString q) = ""
    · simp [recvHandler, ht, htr]
    · by_cases he : (mapGetD s (jsToLower (queryToString q))).length = 0
      · simp [recvHandler, ht, htr, he]
      · simp [recvHandler, ht, htr, he, mapGetD_mapDelete_ne s h]
  · have ht' : queryTruthy q = false := by simpa using ht
    simp [recvHandler, ht']

/-! ## The store invariant and its preservation -/

theorem storeInv_nil : StoreInv [] := by
  refine ⟨List.nodup_nil, ?_, ?_⟩ <;> intro p hp <;> simp at hp

theorem storeInv_sendStore {s : Store} (r c : String) (t : Nat) (rd : String)
    (h : StoreInv s) : StoreInv (sendStore s r c t rd).2 := by
  by_cases hh : mapHas s (jsToLower r) = true
  · rw [sendStore_snd_of_has s c t rd hh]
    refine ⟨?_, ?_, ?_⟩
    · rw [keys_mapSet_of_has s _ hh]
      exact h.1
    · intro p hp
      rcases mem_mapSet hp with rfl | hp'
      · simp
      · exact h.2.1 p hp'
    · intro p hp m hm
      rcases mem_mapSet hp with rfl | hp'
      · rcases List.mem_append.mp hm with hm' | hm'
        · cases hlk : List.lookup (jsToLower r) s with
          | none =>
            rw [mapGetD, hlk] at hm'
            simp at hm'
          | some v =>
            rw [mapGetD, hlk] at hm'
            exact h.2.2 _ (mem_of_lookup_eq_some hlk) m hm'
        · simp only [List.mem_singleton] at hm'
          subst hm'
          rfl
      · exact h.2.2 p hp' m hm
  · have hh' : mapHas s (jsToLower r) = false := by simpa using hh
    rw [sendStore_snd_of_not_has s c t rd hh', mapSet_of_not_has s _ hh']
    refine ⟨?_, ?_, ?_⟩
    · rw [List.map_append]
      refine List.Nodup.append h.1 (by simp) ?_
      intro a ha hb
      simp only [List.map_cons, List.map_nil, List.mem_singleton] at hb
      subst hb
      exact (mapHas_false_iff s (jsToLower r)).mp hh' ha
    · intro p hp
      rcases List.mem_append.mp hp with hp' | hp'
      · exact h.2.1 p hp'
      · simp only [List.mem_singleton] at hp'
        subst hp'
        simp
    · intro p hp m hm
      rcases List.mem_append.mp hp with hp' | hp'
      · exact h.2.2 p hp' m hm
      · simp only [List.mem_singleton] at hp'
        subst hp'
        simp only [List.mem_singleton] at hm
        subst hm
        rfl

theorem storeInv_mapDelete {s : Store} (k : String) (h : StoreInv s) :
    StoreInv (mapDelete s k) := by
  refine ⟨?_, ?_, ?_⟩
  · exact List.Nodup.sublist ((mapDelete_sublist s k).map Prod.fst) h.1
  · intro p hp
    exact h.2.1 p ((mapDelete_sublist s k).subset hp)
  · intro p hp
    exact h.2.2 p ((mapDelete_sublist s k).subset hp)

theorem storeInv_sendHandler {s : Store} (r m : Option JsonVal) (t : Nat) (rd : String)
    (h : StoreInv s) : StoreInv (sendHandler s r m t rd).2 := by
  rcases r with _ | v
  · simpa [sendHandler] using h
  · rcases v with rs | n | b | _
    · by_cases hr : rs = ""
      · simpa [sendHandler, hr] using h
      · rcases m with _ | w
        · simpa [sendHandler, hr] using h
        · rcases w with cs | n' | b' | _
          · by_cases hc : cs = ""
            · simpa [sendHandler, hr, hc] using h
            · rw [sendHandler_valid s t rd hr hc]
              exact storeInv_sendStore rs cs t rd h
          · simpa [sendHandler, hr] using h
          · simpa [sendHandler, hr] using h
          · simpa [sendHandler, hr] using h
    · simpa [sendHandler] using h
    · simpa [sendHandler] using h
    · simpa [sendHandler] using h

theorem storeInv_recvHandler {s : Store} (q : Option QueryVal) (h : StoreInv s) :
    StoreInv (recvHandler s q).2 := by
  rcases q with _ | v
  · simpa [recvHandler] using h
  · by_cases ht : queryTruthy v = true
    · by_cases htr : jsTrim (queryToString v) = ""
      · simpa [recvHandler, ht, htr] using h
      · by_cases he : (mapGetD s (jsToLower (queryToString v))).length = 0
        · simpa [recvHandler, ht, htr, he] using h
        · have := storeInv_mapDelete (jsToLower (queryToString v)) h
          simpa [recvHandler, ht, htr, he] using this
    · have ht' : queryTruthy v = false := by simpa using ht
      simpa [recvHandler, ht'] using h

theorem reachable_storeInv : ∀ {s : Store}, Reachable s → StoreInv s := by
  intro s h
  induction h with
  | init => exact storeInv_nil
  | send r m now rand _ ih => exact storeInv_sendHandler r m now rand ih
  | recv q _ ih => exact storeInv_recvHandler q ih

theorem queryTruthy_qstr {r : String} (h : r ≠ "") : queryTruthy (.qstr r) = true := by
  simp [queryTruthy, h]

theorem nonEmptyRecipients_eq_length {s : Store} (h : ∀ p ∈ s, p.2 ≠ []) :
    nonEmptyRecipients s = s.length := by
  unfold nonEmptyRecipients
  have hall : ∀ p ∈ s, (!p.2.isEmpty) = true := by
    intro p hp
    simpa [List.isEmpty_iff] using h p hp
  rw [List.filter_eq_self.mpr hall]

theorem sendMany_getD_self {r : String} (hr : r ≠ "") :
    ∀ (items : List (String × Nat × String)) (s : Store),
      (∀ it ∈ items, it.1 ≠ "") →
      mapGetD (sendMany s r items) (jsToLower r) =
        mapGetD s (jsToLower r) ++ items.map (fun it => mkMessage r it.1 it.2.1 it.2.2)
  | [], s, _ => by simp [sendMany]
  | it :: its, s, hc => by
    have hit : it.1 ≠ "" := hc it (List.mem_cons_self _ _)
    have hf : (sendHandler s (some (.jstr r)) (some (.jstr it.1)) it.2.1 it.2.2).2 =
        (sendStore s r it.1 it.2.1 it.2.2).2 := by
      rw [sendHandler_valid s it.2.1 it.2.2 hr hit]
    have step : sendMany s r (it :: its) =
        sendMany (sendStore s r it.1 it.2.1 it.2.2).2 r its := by
      simp only [sendMany, List.foldl_cons, hf]
    rw [step,
      sendMany_getD_self hr its _ (fun x hx => hc x (List.mem_cons_of_mem _ hx)),
      sendStore_getD_self]
    simp

/-! ## The claims -/

/-- C1: `Receive` is a destructive drain: on a non-empty mailbox it returns
exactly the messages currently stored under the normalized key, empties
that mailbox, and an immediately following `Receive` on the same key
returns an empty sequence with count 0. -/
theorem receive_is_destructive_drain (s : Store) (r : String)
    (hnd : (s.map Prod.fst).Nodup) (hr : jsTrim r ≠ "")
    (hne : mapGetD s (jsToLower r) ≠ []) :
    (recvHandler s (some (.qstr r))).1 =
        .ok "Messages retrieved successfully"
          ⟨jsToLower r, (mapGetD s (jsToLower r)).map publicView,
           (mapGetD s (jsToLower r)).length⟩
      ∧ mapGetD (recvHandler s (some (.qstr r))).2 (jsToLower r) = []
      ∧ recvHandler (recvHandler s (some (.qstr r))).2 (some (.qstr r)) =
          (.ok "No messages found for recipient" ⟨jsToLower r, [], 0⟩,
           (recvHandler s (some (.qstr r))).2) := by
  have hr0 : r ≠ "" := ne_empty_of_jsTrim_ne hr
  have ht := queryTruthy_qstr hr0
  have hdrain := recvHandler_drain s (.qstr r) ht hr hne
  have hemp : mapGetD (mapDelete s (jsToLower r)) (jsToLower r) = [] :=
    mapGetD_mapDelete_self s _ hnd
  refine ⟨?_, ?_, ?_⟩
  · rw [hdrain]
    rfl
  · rw [hdrain]
    exact hemp
  · rw [hdrain]
    exact recvHandler_empty _ (.qstr r) ht hr hemp

theorem receive_is_destructive_drain_witness :
    (((sendStore [] "Alice" "hi" 3 "r").2.map Prod.fst).Nodup
        ∧ jsTrim "ALICE" ≠ ""
        ∧ mapGetD (sendStore [] "Alice" "hi" 3 "r").2 (jsToLower "ALICE") ≠ [])
      ∧ ((recvHandler (sendStore [] "Alice" "hi" 3 "r").2 (some (.qstr "ALICE"))).1 =
            .ok "Messages retrieved successfully"
              ⟨jsToLower "ALICE",
               (mapGetD (sendStore [] "Alice" "hi" 3 "r").2 (jsToLower "ALICE")).map publicView,
               (mapGetD (sendStore [] "Alice" "hi" 3 "r").2 (jsToLower "ALICE")).length⟩
          ∧ mapGetD (recvHandler (sendStore [] "Alice" "hi" 3 "r").2
              (some (.qstr "ALICE"))).2 (jsToLower "ALICE") = []
          ∧ recvHandler (recvHandler (sendStore [] "Alice" "hi" 3 "r").2
                (some (.qstr "ALICE"))).2 (some (.qstr "ALICE")) =
              (.ok "No messages found for recipient" ⟨jsToLower "ALICE", [], 0⟩,
               (recvHandler (sendStore [] "Alice" "hi" 3 "r").2 (some (.qstr "ALICE"))).2)) :=
  ⟨⟨by decide, by decide, by decide⟩,
    receive_is_destructive_drain _ "ALICE" (by decide) (by decide) (by decide)⟩

/-- C2 counterexample: a whitespace-only recipient is empty after trimming,
yet `/send` accepts it and mutates the store — the request does reach the
store's mutation logic, contradicting the claim. -/
theorem send_whitespace_reaches_store :
    jsTrim " " = ""
      ∧ (sendHandler [] (some (.jstr " ")) (some (.jstr "hi")) 0 "r").2 =
          [(" ", [{ id := "0r", content := "hi", recipient := " ", timestamp := 0 }])] := by
  constructor
  · decide
  · decide

/-- C2 (amended): the store is only ever mutated by `/send` calls whose
`recipient` and `message` are non-empty strings (the empty string and
non-string values are rejected before the store is touched); trimming is
not applied, so whitespace-only strings do reach the store. -/
theorem store_mutated_only_by_nonempty_string_send (s : Store)
    (recipient message : Option JsonVal) (now : Nat) (rand : String)
    (h : (sendHandler s recipient message now rand).2 ≠ s) :
    ∃ r c, recipient = some (.jstr r) ∧ r ≠ "" ∧ message = some (.jstr c) ∧ c ≠ "" := by
  rcases recipient with _ | v
  · simp [sendHandler] at h
  · rcases v with rs | n | b | _
    · by_cases hr : rs = ""
      · simp [sendHandler, hr] at h
      · rcases message with _ | w
        · simp [sendHandler, hr] at h
        · rcases w with cs | n' | b' | _
          · by_cases hc : cs = ""
            · simp [sendHandler, hr, hc] at h
            · exact ⟨rs, cs, rfl, hr, rfl, hc⟩
          · simp [sendHandler, hr] at h
          · simp [sendHandler, hr] at h
          · simp [sendHandler, hr] at h
    · simp [sendHandler] at h
    · simp [sendHandler] at h
    · simp [sendHandler] at h

theorem store_mutated_only_by_nonempty_string_send_witness :
    (sendHandler [] (some (.jstr "bob")) (some (.jstr "hi")) 0 "x").2 ≠ []
      ∧ ∃ r c, (some (JsonVal.jstr "bob") = some (.jstr r) ∧ r ≠ ""
          ∧ some (JsonVal.jstr "hi") = some (.jstr c) ∧ c ≠ "") :=
  ⟨by decide, store_mutated_only_by_nonempty_string_send [] _ _ 0 "x" (by decide)⟩

/-- C5: `Receive` on a key with no queued messages is not an error: it
returns an empty message list with count 0, leaves the store unchanged,
and repeating the call yields the same result. -/
theorem receive_empty_mailbox_ok (s : Store) (r : String) (hr : jsTrim r ≠ "")
    (he : mapGetD s (jsToLower r) = []) :
    recvHandler s (some (.qstr r)) =
        (.ok "No messages found for recipient" ⟨jsToLower r, [], 0⟩, s)
      ∧ recvHandler (recvHandler s (some (.qstr r))).2 (some (.qstr r)) =
          recvHandler s (some (.qstr r)) := by
  have hr0 := ne_empty_of_jsTrim_ne hr
  have h1 := recvHandler_empty s (.qstr r) (queryTruthy_qstr hr0) hr he
  refine ⟨h1, ?_⟩
  rw [h1]
  exact h1

theorem receive_empty_mailbox_ok_witness :
    (jsTrim "nobody" ≠ "" ∧ mapGetD [] (jsToLower "nobody") = [])
      ∧ (recvHandler [] (some (.qstr "nobody")) =
            (.ok "No messages found for recipient" ⟨jsToLower "nobody", [], 0⟩, [])
          ∧ recvHandler (recvHandler [] (some (.qstr "nobody"))).2 (some (.qstr "nobody")) =
              recvHandler [] (some (.qstr "nobody"))) :=
  ⟨⟨by decide, by decide⟩, receive_empty_mailbox_ok [] "nobody" (by decide) (by decide)⟩

/-- C3: messages are filed and looked up under the case-folded recipient
key: a `/send` to `r` followed by a `/recv` for any case variant `r'`
returns the sent message (at the end of that key's mailbox), and both
responses report the normalized (lower-cased) key. -/
theorem send_receive_case_insensitive (s : Store) (r c r' : String) (t : Nat) (rd : String)
    (hr : r ≠ "") (hc : c ≠ "") (hcase : jsToLower r' = jsToLower r) (hr' : jsTrim r' ≠ "") :
    (sendHandler s (some (.jstr r)) (some (.jstr c)) t rd).1 =
        .created (generateMessageId t rd) (jsToLower r) t
      ∧ (recvHandler (sendHandler s (some (.jstr r)) (some (.jstr c)) t rd).2
            (some (.qstr r'))).1 =
          .ok "Messages retrieved successfully"
            ⟨jsToLower r,
             (mapGetD s (jsToLower r)).map publicView ++ [(generateMessageId t rd, c, t)],
             (mapGetD s (jsToLower r)).length + 1⟩ := by
  have hsend := sendHandler_valid s t rd hr hc
  have hr'0 : r' ≠ "" := ne_empty_of_jsTrim_ne hr'
  constructor
  · rw [hsend]
  · rw [hsend]
    have hgd : mapGetD (sendStore s r c t rd).2 (jsToLower r') =
        mapGetD s (jsToLower r) ++ [mkMessage r c t rd] := by
      rw [hcase, sendStore_getD_self]
    have hne : mapGetD (sendStore s r c t rd).2 (jsToLower r') ≠ [] := by
      simp [hgd]
    have hdrain := recvHandler_drain _ (.qstr r') (queryTruthy_qstr hr'0) hr' hne
    rw [hdrain]
    show RecvResult.ok _ _ = _
    rw [show jsToLower (queryToString (.qstr r')) = jsToLower r from hcase]
    rw [show mapGetD (sendStore s r c t rd).2 (jsToLower r) =
          mapGetD s (jsToLower r) ++ [mkMessage r c t rd] from sendStore_getD_self s r c t rd]
    simp [publicView, mkMessage]

theorem send_receive_case_insensitive_witness :
    (("Alice" : String) ≠ "" ∧ ("hi" : String) ≠ ""
        ∧ jsToLower "ALICE" = jsToLower "Alice" ∧ jsTrim "ALICE" ≠ "")
      ∧ ((sendHandler [] (some (.jstr "Alice")) (some (.jstr "hi")) 3 "r").1 =
            .created (generateMessageId 3 "r") (jsToLower "Alice") 3
          ∧ (recvHandler (sendHandler [] (some (.jstr "Alice")) (some (.jstr "hi")) 3 "r").2
                (some (.qstr "ALICE"))).1 =
              .ok "Messages retrieved successfully"
                ⟨jsToLower "Alice",
                 (mapGetD [] (jsToLower "Alice")).map publicView
                   ++ [(generateMessageId 3 "r", "hi", 3)],
                 (mapGetD [] (jsToLower "Alice")).length + 1⟩) :=
  ⟨⟨by decide, by decide, by decide, by decide⟩,
    send_receive_case_insensitive [] "Alice" "hi" "ALICE" 3 "r"
      (by decide) (by decide) (by decide) (by decide)⟩

/-- C4: messages are delivered in arrival order: sending the contents of
`items` (in list order) to one recipient whose mailbox starts empty, and
then draining that recipient, returns exactly those messages in the same
order, with `count` equal to their number. -/
theorem receive_preserves_send_order (s : Store) (r : String)
    (items : List (String × Nat × String)) (hr : jsTrim r ≠ "")
    (hc : ∀ it ∈ items, it.1 ≠ "") (hitems : items ≠ [])
    (hkey : mapGetD s (jsToLower r) = []) :
    (recvHandler (sendMany s r items) (some (.qstr r))).1 =
      .ok "Messages retrieved successfully"
        ⟨jsToLower r,
         items.map (fun it => (generateMessageId it.2.1 it.2.2, it.1, it.2.1)),
         items.length⟩ := by
  have hr0 : r ≠ "" := ne_empty_of_jsTrim_ne hr
  have hgd := sendMany_getD_self hr0 items s hc
  rw [hkey] at hgd
  simp only [List.nil_append] at hgd
  have hne : mapGetD (sendMany s r items) (jsToLower r) ≠ [] := by
    rw [hgd]
    simpa using hitems
  have hdrain := recvHandler_drain _ (.qstr r) (queryTruthy_qstr hr0) hr hne
  rw [hdrain]
  show RecvResult.ok _ _ = _
  rw [show mapGetD (sendMany s r items) (jsToLower (queryToString (.qstr r))) =
        items.map (fun it => mkMessage r it.1 it.2.1 it.2.2) from hgd]
  simp [publicView, mkMessage, Function.comp, queryToString]

theorem receive_preserves_send_order_witness :
    (jsTrim "Bob" ≠ ""
        ∧ (∀ it ∈ [("m1", 1, "a"), ("m2", 2, "b")], it.1 ≠ ("" : String))
        ∧ ([("m1", 1, "a"), ("m2", 2, "b")] : List (String × Nat × String)) ≠ []
        ∧ mapGetD [] (jsToLower "Bob") = [])
      ∧ (recvHandler (sendMany [] "Bob" [("m1", 1, "a"), ("m2", 2, "b")])
            (some (.qstr "Bob"))).1 =
          .ok "Messages retrieved successfully"
            ⟨jsToLower "Bob",
             [("m1", 1, "a"), ("m2", 2, "b")].map
               (fun it => (generateMessageId it.2.1 it.2.2, it.1, it.2.1)),
             ([("m1", 1, "a"), ("m2", 2, "b")] : List (String × Nat × String)).length⟩ :=
  ⟨⟨by decide, by decide, by decide, by decide⟩,
    receive_preserves_send_order [] "Bob" [("m1", 1, "a"), ("m2", 2, "b")]
      (by decide) (by decide) (by decide) (by decide)⟩

/-- C6: `Stats` (the `/health` read of `messages.size`) equals the number
of recipient keys currently mapping to a non-empty mailbox on every
reachable store, and the read does not mutate the store; concretely,
sending to two distinct new recipients makes it 2 and draining one of
them makes it 1. -/
theorem stats_counts_nonempty_mailboxes :
    (∀ s : Store, Reachable s →
        (healthHandler s).1.totalRecipients = nonEmptyRecipients s
          ∧ (healthHandler s).2 = s)
      ∧ ∀ (r1 c1 r2 c2 : String) (t1 t2 : Nat) (rd1 rd2 : String),
          jsTrim r1 ≠ "" → c1 ≠ "" → r2 ≠ "" → c2 ≠ "" →
          jsToLower r1 ≠ jsToLower r2 →
          (healthHandler
              (sendHandler (sendHandler [] (some (.jstr r1)) (some (.jstr c1)) t1 rd1).2
                (some (.jstr r2)) (some (.jstr c2)) t2 rd2).2).1.totalRecipients = 2
            ∧ (healthHandler
                (recvHandler
                  (sendHandler (sendHandler [] (some (.jstr r1)) (some (.jstr c1)) t1 rd1).2
                    (some (.jstr r2)) (some (.jstr c2)) t2 rd2).2
                  (some (.qstr r1))).2).1.totalRecipients = 1 := by
  constructor
  · intro s h
    have inv := reachable_storeInv h
    refine ⟨?_, rfl⟩
    show mapSize s = nonEmptyRecipients s
    rw [nonEmptyRecipients_eq_length inv.2.1]
    rfl
  · intro r1 c1 r2 c2 t1 t2 rd1 rd2 hjt1 hc1 hr2 hc2 hk
    have hr1 : r1 ≠ "" := ne_empty_of_jsTrim_ne hjt1
    have h1 : (sendHandler [] (some (.jstr r1)) (some (.jstr c1)) t1 rd1).2 =
        [(jsToLower r1, [mkMessage r1 c1 t1 rd1])] := by
      rw [sendHandler_valid [] t1 rd1 hr1 hc1,
        sendStore_snd_of_not_has [] c1 t1 rd1 rfl]
      rfl
    have hhas2 : mapHas [(jsToLower r1, [mkMessage r1 c1 t1 rd1])] (jsToLower r2) = false := by
      rw [mapHas, lookup_cons_pair, if_neg (fun he => hk he.symm)]
      rfl
    have h2 : (sendHandler [(jsToLower r1, [mkMessage r1 c1 t1 rd1])]
        (some (.jstr r2)) (some (.jstr c2)) t2 rd2).2 =
        [(jsToLower r1, [mkMessage r1 c1 t1 rd1]),
         (jsToLower r2, [mkMessage r2 c2 t2 rd2])] := by
      rw [sendHandler_valid _ t2 rd2 hr2 hc2,
        sendStore_snd_of_not_has _ c2 t2 rd2 hhas2,
        mapSet_of_not_has _ _ hhas2]
      rfl
    rw [h1, h2]
    constructor
    · rfl
    · have hgd : mapGetD [(jsToLower r1, [mkMessage r1 c1 t1 rd1]),
          (jsToLower r2, [mkMessage r2 c2 t2 rd2])] (jsToLower r1) =
          [mkMessage r1 c1 t1 rd1] := by
        rw [mapGetD, lookup_cons_pair, if_pos rfl]
        rfl
      have hne : mapGetD [(jsToLower r1, [mkMessage r1 c1 t1 rd1]),
          (jsToLower r2, [mkMessage r2 c2 t2 rd2])]
          (jsToLower (queryToString (.qstr r1))) ≠ [] := by
        rw [show jsToLower (queryToString (.qstr r1)) = jsToLower r1 from rfl, hgd]
        simp
      have hdrain := recvHandler_drain _ (.qstr r1) (queryTruthy_qstr hr1) hjt1 hne
      rw [hdrain]
      have hq : jsToLower (queryToString (QueryVal.qstr r1)) = jsToLower r1 := rfl
      show (mapDelete [(jsToLower r1, [mkMessage r1 c1 t1 rd1]),
          (jsToLower r2, [mkMessage r2 c2 t2 rd2])]
          (jsToLower (queryToString (QueryVal.qstr r1)))).length = 1
      rw [hq]
      have hdel : mapDelete [(jsToLower r1, [mkMessage r1 c1 t1 rd1]),
          (jsToLower r2, [mkMessage r2 c2 t2 rd2])] (jsToLower r1) =
          [(jsToLower r2, [mkMessage r2 c2 t2 rd2])] := by
        simp [mapDelete]
      rw [hdel]
      rfl

theorem stats_counts_nonempty_mailboxes_witness :
    (Reachable ([] : Store)
        ∧ (healthHandler []).1.totalRecipients = nonEmptyRecipients [])
      ∧ jsTrim "a" ≠ ""
      ∧ jsToLower "a" ≠ jsToLower "b"
      ∧ (healthHandler
          (sendHandler (sendHandler [] (some (.jstr "a")) (some (.jstr "x")) 0 "r").2
            (some (.jstr "b")) (some (.jstr "y")) 1 "u").2).1.totalRecipients = 2
      ∧ (healthHandler
          (recvHandler
            (sendHandler (sendHandler [] (some (.jstr "a")) (some (.jstr "x")) 0 "r").2
              (some (.jstr "b")) (some (.jstr "y")) 1 "u").2
            (some (.qstr "a"))).2).1.totalRecipients = 1 :=
  ⟨⟨Reachable.init, (stats_counts_nonempty_mailboxes.1 [] Reachable.init).1⟩,
   by decide, by decide,
   (stats_counts_nonempty_mailboxes.2 "a" "x" "b" "y" 0 1 "r" "u"
     (by decide) (by decide) (by decide) (by decide) (by decide)).1,
   (stats_counts_nonempty_mailboxes.2 "a" "x" "b" "y" 0 1 "r" "u"
     (by decide) (by decide) (by decide) (by decide) (by decide)).2⟩

/-- C7: per-recipient isolation: a send to one key leaves every other
key's mailbox unchanged; a receive for one recipient name leaves every
key other than its normalized key unchanged; and on every reachable store
each stored message sits only in the mailbox of its own normalized
recipient, hence in no second mailbox. -/
theorem per_recipient_isolation :
    (∀ (s : Store) (r c : String) (t : Nat) (rd k : String),
        k ≠ jsToLower r → mapGetD (sendStore s r c t rd).2 k = mapGetD s k)
      ∧ (∀ (s : Store) (q : QueryVal) (k : String),
          k ≠ jsToLower (queryToString q) →
          mapGetD (recvHandler s (some q)).2 k = mapGetD s k)
      ∧ ∀ s : Store, Reachable s →
          (∀ k : String, ∀ m ∈ mapGetD s k, m.recipient = k)
            ∧ ∀ (k1 k2 : String) (m : Message), k1 ≠ k2 →
                m ∈ mapGetD s k1 → m ∉ mapGetD s k2 := by
  refine ⟨?_, ?_, ?_⟩
  · intro s r c t rd k hk
    exact sendStore_getD_ne s c t rd hk
  · intro s q k hk
    exact recvHandler_frame s q hk
  · intro s h
    have inv := reachable_storeInv h
    have hrec : ∀ k : String, ∀ m ∈ mapGetD s k, m.recipient = k := by
      intro k m hm
      cases hlk : List.lookup k s with
      | none =>
        rw [mapGetD, hlk] at hm
        simp at hm
      | some v =>
        rw [mapGetD, hlk] at hm
        exact inv.2.2 _ (mem_of_lookup_eq_some hlk) m hm
    refine ⟨hrec, ?_⟩
    intro k1 k2 m hne hm1 hm2
    exact hne ((hrec k1 m hm1).symm.trans (hrec k2 m hm2))

theorem per_recipient_isolation_witness :
    ("bob" : String) ≠ jsToLower "alice"
      ∧ mapGetD (sendStore [] "alice" "hi" 0 "r").2 "bob" = mapGetD [] "bob"
      ∧ mapGetD (recvHandler [] (some (.qstr "alice"))).2 "bob" = mapGetD [] "bob"
      ∧ (mkMessage "a" "x" 0 "r").recipient = "a" :=
  ⟨by decide,
   per_recipient_isolation.1 [] "alice" "hi" 0 "r" "bob" (by decide),
   per_recipient_isolation.2.1 [] (.qstr "alice") "bob" (by decide),
   (per_recipient_isolation.2.2 _
       (Reachable.send (some (.jstr "a")) (some (.jstr "x")) 0 "r" Reachable.init)).1
     "a" (mkMessage "a" "x" 0 "r") (by decide)⟩

/-- C8 counterexample: two `/send` calls that observe the same clock
millisecond and draw the same random fragment are assigned the same id,
so the id of a message is not guaranteed distinct from every other —
here two different messages carry one id. -/
theorem message_id_collision :
    (sendStore [] "alice" "m1" 7 "abc").1.id =
        (sendStore (sendStore [] "alice" "m1" 7 "abc").2 "bob" "m2" 7 "abc").1.id
      ∧ (sendStore [] "alice" "m1" 7 "abc").1 ≠
          (sendStore (sendStore [] "alice" "m1" 7 "abc").2 "bob" "m2" 7 "abc").1 := by
  constructor
  · rfl
  · decide

/-- C8 (amended): the id `/send` assigns is the decimal clock reading
concatenated with the random base-36 fragment; two sends that share the
clock reading receive distinct ids exactly when their random fragments
differ, so uniqueness is probabilistic, not guaranteed. -/
theorem send_ids_distinct_iff_rand_differs (s1 s2 : Store) (r1 c1 r2 c2 : String)
    (t : Nat) (rd1 rd2 : String) :
    (sendStore s1 r1 c1 t rd1).1.id = (sendStore s2 r2 c2 t rd2).1.id ↔ rd1 = rd2 := by
  show generateMessageId t rd1 = generateMessageId t rd2 ↔ rd1 = rd2
  constructor
  · intro h
    have hd : (toString t).data ++ rd1.data = (toString t).data ++ rd2.data := by
      have h2 := congrArg String.data h
      rwa [generateMessageId, generateMessageId, String.data_append, String.data_append] at h2
    have h3 : rd1.data = rd2.data := List.append_cancel_left hd
    cases rd1
    cases rd2
    exact congrArg String.mk h3
  · intro h
    rw [h]

/-- C9 counterexample: a present non-string `recipient` query value can
be rejected: the array `[""]` (what `?recipient[]=` parses to) is truthy,
is coerced by `String(...)` to `""`, and `/recv` answers HTTP 400
"Recipient parameter cannot be empty" instead of the not-found result. -/
theorem recv_nonstring_empty_array_rejected :
    recvHandler [] (some (.qarr [""])) =
      (.badRequest "Invalid recipient" "Recipient parameter cannot be empty", []) := by
  decide

/-- C9 (amended): `/recv` rejects a missing or explicitly empty
`recipient` query parameter with HTTP 400 ("Recipient parameter is
required"); a present non-string value (an array or an object) is not
rejected for its type but is coerced with `String(...)` and subjected to
the same emptiness check on the coerced text: a coercion that trims to
the empty string is rejected with HTTP 400 ("Recipient parameter cannot
be empty") leaving the store unchanged, and otherwise the coerced string
is lower-cased and looked up as an ordinary key, yielding the not-found
result (empty list, count 0) when nothing is queued under it. -/
theorem recv_missing_vs_nonstring (s : Store) :
    recvHandler s none =
        (.badRequest "Invalid recipient" "Recipient parameter is required", s)
      ∧ recvHandler s (some (.qstr "")) =
          (.badRequest "Invalid recipient" "Recipient parameter is required", s)
      ∧ (∀ l : List String,
          jsTrim (String.intercalate "," l) = "" →
          recvHandler s (some (.qarr l)) =
            (.badRequest "Invalid recipient" "Recipient parameter cannot be empty", s))
      ∧ (∀ l : List String,
          jsTrim (String.intercalate "," l) ≠ "" →
          mapGetD s (jsToLower (String.intercalate "," l)) = [] →
          recvHandler s (some (.qarr l)) =
            (.ok "No messages found for recipient"
              ⟨jsToLower (String.intercalate "," l), [], 0⟩, s))
      ∧ (mapGetD s (jsToLower "[object Object]") = [] →
          recvHandler s (some .qobj) =
            (.ok "No messages found for recipient"
              ⟨jsToLower "[object Object]", [], 0⟩, s)) := by
  refine ⟨rfl, ?_, ?_, ?_, ?_⟩
  · simp [recvHandler, queryTruthy]
  · intro l h1
    simp [recvHandler, queryTruthy, queryToString, h1]
  · intro l h1 h2
    exact recvHandler_empty s (.qarr l) rfl h1 h2
  · intro h
    exact recvHandler_empty s .qobj rfl (by decide) h

theorem recv_missing_vs_nonstring_witness :
    (jsTrim (String.intercalate "," [""]) = ""
        ∧ recvHandler [] (some (.qarr [""])) =
            (.badRequest "Invalid recipient" "Recipient parameter cannot be empty", []))
      ∧ jsTrim (String.intercalate "," ["a", "b"]) ≠ ""
      ∧ mapGetD [] (jsToLower (String.intercalate "," ["a", "b"])) = []
      ∧ recvHandler [] (some (.qarr ["a", "b"])) =
          (.ok "No messages found for recipient"
            ⟨jsToLower (String.intercalate "," ["a", "b"]), [], 0⟩, []) :=
  ⟨⟨by decide, (recv_missing_vs_nonstring []).2.2.1 [""] (by decide)⟩,
   by decide, by decide,
   (recv_missing_vs_nonstring []).2.2.2.1 ["a", "b"] (by decide) (by decide)⟩

/-- C10: on every reachable store, every key present in the map holds a
non-empty message list (send appends right after creating an entry and
receive deletes the whole entry when it drains), so the map's size equals
the number of recipients with at least one queued message. -/
theorem store_map_invariant (s : Store) (h : Reachable s) :
    (∀ p ∈ s, p.2 ≠ []) ∧ mapSize s = nonEmptyRecipients s := by
  have inv := reachable_storeInv h
  refine ⟨inv.2.1, ?_⟩
  rw [nonEmptyRecipients_eq_length inv.2.1]
  rfl

theorem store_map_invariant_witness :
    (∀ p ∈ (sendHandler [] (some (.jstr "a")) (some (.jstr "x")) 0 "r").2, p.2 ≠ [])
      ∧ mapSize (sendHandler [] (some (.jstr "a")) (some (.jstr "x")) 0 "r").2 =
          nonEmptyRecipients (sendHandler [] (some (.jstr "a")) (some (.jstr "x")) 0 "r").2 :=
  store_map_invariant _ (Reachable.send (some (.jstr "a")) (some (.jstr "x")) 0 "r" Reachable.init)
